import Mathlib

/-!
Verification of the time-tick sync inspector
(`internal/streamingnode/server/wal/interceptors/timetick/inspector/impls.go`).

The inspector collects per-channel sync requests, deduplicates concurrent
requests for the same channel, and dispatches at most one sync execution per
channel at a time.  We model the concurrent Go code as a functional shallow
embedding: the shared maps and sets become association lists, goroutine
launches become explicit lists of launched executions, and Go panics become
an explicit `Option String` panic-message component of each operation's
result.  The dispatch/shutdown interplay is additionally modelled as a
labelled transition system so that the temporal shutdown claims can be
stated over traces.
-/

namespace Inspector

/-- Channel identity (`types.PChannelInfo`): a globally unique name plus a
term number that this core does not interpret. -/
structure PChannelInfo where
  name : String
  term : Int
deriving DecidableEq, Repr

/-- A sync operator (`TimeTickSyncOperator`): externally supplied; exposes its
owning channel.  The behaviour of its `Sync` method is external to this core,
so an operator is identified here by its channel and an opaque id. -/
structure TimeTickSyncOperator where
  id : Nat
  channel : PChannelInfo
deriving DecidableEq, Repr

/-- Modelled from the spec: `typeutil.ConcurrentMap` (repository utility code
outside `src/`), an association list keyed by channel name.  The spec calls it
the Operator Registry: a concurrent mapping from channel name to sync
operator. -/
abbrev Registry := List (String × TimeTickSyncOperator)

/-- Modelled from the spec: `ConcurrentMap.Get` — non-blocking lookup
(`Lookup(name) -> operator, found`). -/
def Registry.get (r : Registry) (name : String) : Option TimeTickSyncOperator :=
  match r with
  | [] => none
  | (k, v) :: rest => if k = name then some v else Registry.get rest name

/-- Modelled from the spec: `ConcurrentMap.GetOrInsert` — atomic "insert if
absent"; returns the map afterwards and whether the key was already loaded.
When the key is present the stored value is kept, not overwritten. -/
def Registry.getOrInsert (r : Registry) (name : String) (op : TimeTickSyncOperator) :
    Registry × Bool :=
  match Registry.get r name with
  | some _ => (r, true)
  | none => ((name, op) :: r, false)

/-- Modelled from the spec: `ConcurrentMap.GetAndRemove` — removes the entry
for the key, returning the map afterwards and whether the key was loaded. -/
def Registry.getAndRemove (r : Registry) (name : String) : Registry × Bool :=
  match Registry.get r name with
  | some _ => (r.filter (fun kv => kv.1 ≠ name), true)
  | none => (r, false)

/-- Modelled from the spec: `typeutil.ConcurrentSet` (repository utility code
outside `src/`), the In-Flight (dedup) Set of channel names, as a list without
duplicates by construction of its operations. -/
abbrev WorkingSet := List String

/-- Membership in the working set. -/
def WorkingSet.mem (w : WorkingSet) (name : String) : Bool :=
  w.contains name

/-- Modelled from the spec: `ConcurrentSet.Insert` — atomic insert-if-absent;
returns the set afterwards and `true` exactly when the name was newly
inserted (a failed insert signals "skip, do not dispatch"). -/
def WorkingSet.insert (w : WorkingSet) (name : String) : WorkingSet × Bool :=
  if w.contains name then (w, false) else (name :: w, true)

/-- Modelled from the spec: `ConcurrentSet.Remove` — removes the name. -/
def WorkingSet.remove (w : WorkingSet) (name : String) : WorkingSet :=
  w.filter (fun x => x ≠ name)

/-- Modelled from the spec: the Signal Accumulator (`syncNotifier`, repository
code outside `src/`).  It holds, per channel name, the pending persisted flag;
`AddAndNotify` merges by logical OR and wakes the consumer; `Get` atomically
drains everything.  The channel identity of the first trigger is retained so
the drain can hand back `(pchannel, persisted)` pairs as the source does. -/
structure SyncNotifier where
  signals : List (PChannelInfo × Bool)
deriving Repr

/-- Look up the pending persisted flag for a channel name. -/
def SyncNotifier.getSignal (n : SyncNotifier) (name : String) : Option Bool :=
  match n.signals.find? (fun s => s.1.name = name) with
  | some s => some s.2
  | none => none

/-- Modelled from the spec: `AddAndNotify(channelName, persisted)` merges the
flag into the Pending Signal for the channel name — logical OR with any
existing unresolved value — then ensures the consumer is woken. -/
def SyncNotifier.addAndNotify (n : SyncNotifier) (ch : PChannelInfo) (persisted : Bool) :
    SyncNotifier :=
  if n.signals.any (fun s => s.1.name = ch.name) then
    ⟨n.signals.map (fun s => if s.1.name = ch.name then (s.1, s.2 || persisted) else s)⟩
  else
    ⟨n.signals ++ [(ch, persisted)]⟩

/-- Modelled from the spec: `Get` / `DrainAll` — atomically removes and
returns all currently pending signals. -/
def SyncNotifier.drainAll (n : SyncNotifier) : List (PChannelInfo × Bool) × SyncNotifier :=
  (n.signals, ⟨[]⟩)

/-- The inspector state (`timeTickSyncInspectorImpl`): the operator registry,
the signal accumulator, and the in-flight (`working`) set. -/
structure State where
  operators : Registry
  syncNotifier : SyncNotifier
  working : WorkingSet

/-- A launched sync execution: the goroutine spawned by `asyncSync`, carrying
the channel name and the persisted flag it was dispatched with. -/
structure Exec where
  channelName : String
  persisted : Bool
deriving DecidableEq, Repr

/-- A call actually made to some operator's `Sync` method. -/
structure SyncCall where
  channelName : String
  persisted : Bool
deriving DecidableEq, Repr

/-- `TriggerSync(pChannelInfo, persisted)`: forwards to
`syncNotifier.AddAndNotify`; touches nothing else. -/
def TriggerSync (s : State) (ch : PChannelInfo) (persisted : Bool) : State :=
  { s with syncNotifier := s.syncNotifier.addAndNotify ch persisted }

/-- `MustGetOperator(pChannelInfo)`: looks the operator up by channel name and
panics ("sync operator not found, critical bug in code") when absent. -/
def MustGetOperator (s : State) (ch : PChannelInfo) : Except String TimeTickSyncOperator :=
  match s.operators.get ch.name with
  | some operator => .ok operator
  | none => .error "sync operator not found, critical bug in code"

/-- `RegisterSyncOperator(operator)`: `GetOrInsert` under the operator's
channel name; panics when the name was already loaded.  Returns the state
after the call together with the panic message, if any. -/
def RegisterSyncOperator (s : State) (op : TimeTickSyncOperator) : State × Option String :=
  let res := s.operators.getOrInsert op.channel.name op
  if res.2 then
    ({ s with operators := res.1 }, some "sync operator already exists, critical bug in code")
  else
    ({ s with operators := res.1 }, none)

/-- `UnregisterSyncOperator(operator)`: `GetAndRemove` under the operator's
channel name; panics when no entry was loaded. -/
def UnregisterSyncOperator (s : State) (op : TimeTickSyncOperator) : State × Option String :=
  let res := s.operators.getAndRemove op.channel.name
  if res.2 then
    ({ s with operators := res.1 }, none)
  else
    ({ s with operators := res.1 }, some "sync operator not found, critical bug in code")

/-- `asyncSync(pchannelName, persisted)`: insert-if-absent into the working
set; when the name is already present the request is dropped (return, nothing
launched); otherwise one background execution is launched.  Returns the state
after the call and the list of executions launched by it. -/
def asyncSync (s : State) (pchannelName : String) (persisted : Bool) : State × List Exec :=
  let ins := s.working.insert pchannelName
  if ins.2 then
    ({ s with working := ins.1 }, [⟨pchannelName, persisted⟩])
  else
    (s, [])

/-- The outcome of an operator's `Sync` call, as far as this core can
observe it: it may return normally (successfully or with an internal
failure the operator swallows) or raise a panic inside the call. -/
inductive SyncOutcome where
  | success
  | failure
  | panicked
deriving DecidableEq, Repr

/-- Result of running the body of one launched execution: the state
afterwards, the `Sync` calls made, and whether a panic propagated out of
the goroutine after its deferred cleanup ran. -/
structure ExecResult where
  state : State
  calls : List SyncCall
  panicked : Bool

/-- The goroutine body launched by `asyncSync`, run against the inspector
state at execution time: it looks the operator up (absent means silently
skip), invokes `Sync` when found, and — by Go `defer` semantics, which run
on every outcome including a panic raised inside `Sync` — unconditionally
removes the channel name from the working set. -/
def runExec (s : State) (e : Exec) (outcome : SyncOutcome) : ExecResult :=
  match s.operators.get e.channelName with
  | some _ =>
      { state := { s with working := s.working.remove e.channelName }
        calls := [⟨e.channelName, e.persisted⟩]
        panicked := outcome = SyncOutcome.panicked }
  | none =>
      { state := { s with working := s.working.remove e.channelName }
        calls := []
        panicked := false }

/-- Fold `asyncSync` over a list of `(name, persisted)` dispatch requests,
accumulating the launched executions in order. -/
def asyncSyncAll (s : State) : List (String × Bool) → State × List Exec
  | [] => (s, [])
  | (name, persisted) :: rest =>
      let r := asyncSync s name persisted
      let r2 := asyncSyncAll r.1 rest
      (r2.1, r.2 ++ r2.2)

/-- The ticker branch of `background`: for every channel currently in the
operator registry, request a dispatch with `persisted = false`. -/
def handleTick (s : State) : State × List Exec :=
  asyncSyncAll s (s.operators.map (fun kv => (kv.1, false)))

/-- The notifier branch of `background`: drain all pending signals and
request a dispatch for each `(pchannel, persisted)` pair. -/
def handleNotify (s : State) : State × List Exec :=
  let drained := s.syncNotifier.drainAll
  asyncSyncAll { s with syncNotifier := drained.2 }
    (drained.1.map (fun sg => (sg.1.name, sg.2)))

/-- One iteration event of the scheduler loop's three-way select. -/
inductive LoopEvent where
  | shutdown
  | tick
  | notified
deriving DecidableEq, Repr

/-- The scheduler loop (`background`) run over a sequence of select events:
a `shutdown` event makes the loop return at once; `tick` and `notified`
events dispatch through `asyncSync` and continue.  Returns the state when
the loop exits and all executions it launched, in order. -/
def runLoop (s : State) : List LoopEvent → State × List Exec
  | [] => (s, [])
  | LoopEvent.shutdown :: _ => (s, [])
  | LoopEvent.tick :: rest =>
      let r := handleTick s
      let r2 := runLoop r.1 rest
      (r2.1, r.2 ++ r2.2)
  | LoopEvent.notified :: rest =>
      let r := handleNotify s
      let r2 := runLoop r.1 rest
      (r2.1, r.2 ++ r2.2)

/-- Modelled from the spec: the shutdown coordination state.  The
`syncutil.AsyncTaskNotifier` and `sync.WaitGroup` used by `background` and
`Close` are repository code outside `src/`; per the spec, shutdown is a
single cancellation signal, the loop exits when it observes it, and `Close`
blocks until the loop has exited and the in-flight counter has drained.
`launched` counts `wg.Add(1)` calls at dispatch, `returned` counts
completed execution goroutines (`wg.Done`). -/
structure Sys where
  loopRunning : Bool
  shutdownRequested : Bool
  launched : Nat
  returned : Nat
  closeBegun : Bool
  closeReturned : Bool
deriving DecidableEq, Repr

/-- The initial system state right after `NewTimeTickSyncInspector`: the
background loop is running, nothing launched, no shutdown. -/
def Sys.init : Sys :=
  { loopRunning := true, shutdownRequested := false, launched := 0, returned := 0
    closeBegun := false, closeReturned := false }

/-- Observable transition labels of the inspector's concurrent behaviour. -/
inductive SysLabel where
  | dispatch
  | execReturn
  | closeBegin
  | loopExit
  | closeReturn
deriving DecidableEq, Repr

/-- Modelled from the spec: one step of the inspector's concurrent
behaviour.  `dispatch` (the loop launches one execution) requires the loop
to still be running; `loopExit` (the select observes the cancellation and
`background` returns) requires the shutdown signal; `closeReturn` requires
`closeBegin` to have happened, the loop to have exited
(`BlockUntilFinish`), and every launched execution to have returned
(`wg.Wait`). -/
inductive SysStep : Sys → SysLabel → Sys → Prop where
  | dispatch (s : Sys) : s.loopRunning = true →
      SysStep s SysLabel.dispatch { s with launched := s.launched + 1 }
  | execReturn (s : Sys) : s.returned < s.launched →
      SysStep s SysLabel.execReturn { s with returned := s.returned + 1 }
  | closeBegin (s : Sys) :
      SysStep s SysLabel.closeBegin { s with shutdownRequested := true, closeBegun := true }
  | loopExit (s : Sys) : s.shutdownRequested = true → s.loopRunning = true →
      SysStep s SysLabel.loopExit { s with loopRunning := false }
  | closeReturn (s : Sys) : s.closeBegun = true → s.loopRunning = false →
      s.returned = s.launched →
      SysStep s SysLabel.closeReturn { s with closeReturned := true }

/-- A finite trace of system steps with its label sequence. -/
inductive SysTrace : Sys → List SysLabel → Sys → Prop where
  | nil (s : Sys) : SysTrace s [] s
  | cons {s s₂ s₃ : Sys} {l : SysLabel} {ls : List SysLabel} :
      SysStep s l s₂ → SysTrace s₂ ls s₃ → SysTrace s (l :: ls) s₃

/-! Helper lemmas about the working set and dispatch. -/

/-- A failed insert leaves the set unchanged and reports `false`. -/
lemma WorkingSet.insert_mem {w : WorkingSet} {name : String}
    (h : w.mem name = true) : w.insert name = (w, false) := by
  have hc : w.contains name = true := h
  unfold WorkingSet.insert
  rw [hc]
  rfl

/-- A successful insert prepends the name and reports `true`. -/
lemma WorkingSet.insert_not_mem {w : WorkingSet} {name : String}
    (h : w.mem name = false) : w.insert name = (name :: w, true) := by
  have hc : w.contains name = false := h
  unfold WorkingSet.insert
  rw [hc]
  rfl

/-- Removing a name actually removes it from the set. -/
lemma WorkingSet.mem_remove_self (w : WorkingSet) (name : String) :
    (w.remove name).mem name = false := by
  simp [WorkingSet.remove, WorkingSet.mem]

/-- A cons of a different name preserves non-membership. -/
lemma contains_cons_false {w : List String} {n m : String}
    (h1 : w.contains m = false) (h2 : ¬ n = m) : (n :: w).contains m = false := by
  simp_all
  intro he
  exact h2 he.symm

/-- Dispatch for an already-working channel is a no-op returning no launch. -/
lemma asyncSync_mem {s : State} {name : String} (p : Bool)
    (h : s.working.mem name = true) : asyncSync s name p = (s, []) := by
  simp [asyncSync, WorkingSet.insert_mem h]

/-- Dispatch for a fresh channel inserts it and launches one execution. -/
lemma asyncSync_not_mem {s : State} {name : String} (p : Bool)
    (h : s.working.mem name = false) :
    asyncSync s name p = ({ s with working := name :: s.working }, [⟨name, p⟩]) := by
  simp [asyncSync, WorkingSet.insert_not_mem h]

/-- Folding dispatch over pairwise-distinct fresh channel names launches
exactly one execution per request, in order, and only grows the working
set by those names. -/
lemma asyncSyncAll_fresh (s : State) (reqs : List (String × Bool))
    (hfresh : ∀ r ∈ reqs, s.working.mem r.1 = false)
    (hnd : (reqs.map Prod.fst).Nodup) :
    asyncSyncAll s reqs =
      ({ s with working := (reqs.map Prod.fst).reverse ++ s.working },
       reqs.map (fun r => ⟨r.1, r.2⟩)) := by
  induction reqs generalizing s with
  | nil => simp [asyncSyncAll]
  | cons r rest ih =>
      obtain ⟨n, p⟩ := r
      have hn : s.working.mem n = false := hfresh (n, p) (List.mem_cons_self _ _)
      have hrest : ∀ q ∈ rest, WorkingSet.mem (n :: s.working) q.1 = false := by
        intro q hq
        have hq1 : s.working.mem q.1 = false := hfresh q (List.mem_cons_of_mem _ hq)
        have hne : ¬ n = q.1 := by
          intro he
          have : n ∈ rest.map Prod.fst := List.mem_map.mpr ⟨q, hq, he.symm⟩
          simp only [List.map_cons, List.nodup_cons] at hnd
          exact hnd.1 this
        exact contains_cons_false hq1 hne
      have hnd2 : (rest.map Prod.fst).Nodup := by
        simp only [List.map_cons, List.nodup_cons] at hnd
        exact hnd.2
      have ihr := ih { s with working := n :: s.working } hrest hnd2
      simp only [asyncSyncAll, asyncSync_not_mem p hn, ihr]
      simp [List.append_assoc]

/-- Neither element of the fold's result changes the registry or notifier. -/
lemma asyncSyncAll_operators (s : State) (reqs : List (String × Bool)) :
    (asyncSyncAll s reqs).1.operators = s.operators ∧
    (asyncSyncAll s reqs).1.syncNotifier = s.syncNotifier := by
  induction reqs generalizing s with
  | nil => exact ⟨rfl, rfl⟩
  | cons r rest ih =>
      obtain ⟨n, p⟩ := r
      cases hv : s.working.mem n with
      | true =>
          simp only [asyncSyncAll, asyncSync_mem p hv]
          exact ih s
      | false =>
          simp only [asyncSyncAll, asyncSync_not_mem p hv]
          exact ih { s with working := n :: s.working }

/-- Removing every entry of a key makes a lookup of that key fail. -/
lemma Registry.get_filter_ne (r : Registry) (name : String) :
    Registry.get (r.filter (fun kv => kv.1 ≠ name)) name = none := by
  induction r with
  | nil => rfl
  | cons kv rest ih =>
      by_cases h : kv.1 = name
      · simpa [List.filter_cons, h] using ih
      · simpa [List.filter_cons, h, Registry.get] using ih

/-- C1: if the channel name is already a member of the in-flight set when a
dispatch is requested, `asyncSync` returns at once with the state unchanged
and launches no additional execution — the request is dropped, not queued. -/
theorem asyncSync_drops_when_in_flight (s : State) (name : String) (p : Bool)
    (h : s.working.mem name = true) :
    asyncSync s name p = (s, []) :=
  asyncSync_mem p h

/-- Witness for C1 at a concrete state whose in-flight set holds the name. -/
theorem asyncSync_drops_when_in_flight_witness :
    WorkingSet.mem ["ch-1"] "ch-1" = true ∧
    asyncSync ⟨[], ⟨[]⟩, ["ch-1"]⟩ "ch-1" true = (⟨[], ⟨[]⟩, ["ch-1"]⟩, []) :=
  ⟨by decide, asyncSync_drops_when_in_flight ⟨[], ⟨[]⟩, ["ch-1"]⟩ "ch-1" true (by decide)⟩

/-- C5: every launched execution removes its channel name from the in-flight
set on completion, unconditionally on the outcome — success, failure, absent
operator, or a panic raised inside the operator's `Sync` call (the removal
sits in a `defer`, which Go runs on every exit path including panic). -/
theorem runExec_always_clears_working (s : State) (e : Exec) (o : SyncOutcome) :
    (runExec s e o).state.working = s.working.remove e.channelName ∧
    WorkingSet.mem (runExec s e o).state.working e.channelName = false := by
  unfold runExec
  cases h : s.operators.get e.channelName <;>
    exact ⟨rfl, WorkingSet.mem_remove_self _ _⟩

/-- Running an execution whose operator lookup fails makes no call and
propagates no panic. -/
lemma runExec_absent (s : State) (e : Exec) (o : SyncOutcome)
    (h : s.operators.get e.channelName = none) :
    (runExec s e o).calls = [] ∧ (runExec s e o).panicked = false := by
  simp [runExec, h]

/-- C7: when no operator is registered for the channel name at execution
time, the execution silently skips — no `Sync` call is made, and no panic
escapes. -/
theorem runExec_absent_operator_skips (s : State) (e : Exec) (o : SyncOutcome)
    (h : s.operators.get e.channelName = none) :
    (runExec s e o).calls = [] ∧ (runExec s e o).panicked = false :=
  runExec_absent s e o h

/-- Witness for C7 at an empty registry with a panicking outcome. -/
theorem runExec_absent_operator_skips_witness :
    Registry.get [] "ch-1" = none ∧
    (runExec ⟨[], ⟨[]⟩, ["ch-1"]⟩ ⟨"ch-1", true⟩ SyncOutcome.panicked).calls = [] ∧
    (runExec ⟨[], ⟨[]⟩, ["ch-1"]⟩ ⟨"ch-1", true⟩ SyncOutcome.panicked).panicked = false :=
  ⟨rfl, runExec_absent_operator_skips ⟨[], ⟨[]⟩, ["ch-1"]⟩ ⟨"ch-1", true⟩
    SyncOutcome.panicked rfl⟩

/-- C9: `MustGetOperator` returns the registered operator when one is present
under the channel's name, and panics exactly when none is registered; it has
no error-value result. -/
theorem mustGetOperator_spec (s : State) (ch : PChannelInfo) :
    (∀ op, s.operators.get ch.name = some op → MustGetOperator s ch = Except.ok op) ∧
    (s.operators.get ch.name = none ↔
      MustGetOperator s ch = Except.error "sync operator not found, critical bug in code") := by
  constructor
  · intro op h
    simp [MustGetOperator, h]
  · constructor
    · intro h
      simp [MustGetOperator, h]
    · intro h
      cases hg : s.operators.get ch.name with
      | none => rfl
      | some op => simp [MustGetOperator, hg] at h

/-- Witness for C9: a present lookup succeeds, an absent one panics. -/
theorem mustGetOperator_spec_witness :
    MustGetOperator ⟨[("ch-1", ⟨7, ⟨"ch-1", 0⟩⟩)], ⟨[]⟩, []⟩ ⟨"ch-1", 0⟩ =
      Except.ok ⟨7, ⟨"ch-1", 0⟩⟩ ∧
    MustGetOperator ⟨[], ⟨[]⟩, []⟩ ⟨"ch-2", 0⟩ =
      Except.error "sync operator not found, critical bug in code" :=
  ⟨(mustGetOperator_spec ⟨[("ch-1", ⟨7, ⟨"ch-1", 0⟩⟩)], ⟨[]⟩, []⟩ ⟨"ch-1", 0⟩).1
      ⟨7, ⟨"ch-1", 0⟩⟩ (by decide),
   (mustGetOperator_spec ⟨[], ⟨[]⟩, []⟩ ⟨"ch-2", 0⟩).2.mp rfl⟩

/-- C4: registration stores the operator under its channel's name; when the
name is already present it panics and leaves the registry unchanged — the
previously registered operator remains mapped, not overwritten. -/
theorem registerSyncOperator_spec (s : State) (op : TimeTickSyncOperator) :
    (∀ op₀, s.operators.get op.channel.name = some op₀ →
      RegisterSyncOperator s op =
        (s, some "sync operator already exists, critical bug in code")) ∧
    (s.operators.get op.channel.name = none →
      RegisterSyncOperator s op =
        ({ s with operators := (op.channel.name, op) :: s.operators }, none) ∧
      Registry.get (RegisterSyncOperator s op).1.operators op.channel.name = some op) := by
  constructor
  · intro op₀ h
    simp [RegisterSyncOperator, Registry.getOrInsert, h]
  · intro h
    refine ⟨by simp [RegisterSyncOperator, Registry.getOrInsert, h], ?_⟩
    simp [RegisterSyncOperator, Registry.getOrInsert, h, Registry.get]

/-- Witness for C4: a duplicate registration panics with the registry kept;
a fresh registration stores the operator. -/
theorem registerSyncOperator_spec_witness :
    RegisterSyncOperator ⟨[("ch-1", ⟨7, ⟨"ch-1", 0⟩⟩)], ⟨[]⟩, []⟩ ⟨8, ⟨"ch-1", 1⟩⟩ =
      (⟨[("ch-1", ⟨7, ⟨"ch-1", 0⟩⟩)], ⟨[]⟩, []⟩,
        some "sync operator already exists, critical bug in code") ∧
    RegisterSyncOperator ⟨[], ⟨[]⟩, []⟩ ⟨7, ⟨"ch-1", 0⟩⟩ =
      (⟨[("ch-1", ⟨7, ⟨"ch-1", 0⟩⟩)], ⟨[]⟩, []⟩, none) :=
  ⟨(registerSyncOperator_spec ⟨[("ch-1", ⟨7, ⟨"ch-1", 0⟩⟩)], ⟨[]⟩, []⟩
      ⟨8, ⟨"ch-1", 1⟩⟩).1 ⟨7, ⟨"ch-1", 0⟩⟩ (by decide),
   ((registerSyncOperator_spec ⟨[], ⟨[]⟩, []⟩ ⟨7, ⟨"ch-1", 0⟩⟩).2 rfl).1⟩

/-- C8: unregistration removes the registry entry for the operator's channel
name, and panics when no entry for that name is present (the registry is then
left unchanged). -/
theorem unregisterSyncOperator_spec (s : State) (op : TimeTickSyncOperator) :
    (s.operators.get op.channel.name = none →
      UnregisterSyncOperator s op =
        (s, some "sync operator not found, critical bug in code")) ∧
    (∀ op₀, s.operators.get op.channel.name = some op₀ →
      (UnregisterSyncOperator s op).2 = none ∧
      Registry.get (UnregisterSyncOperator s op).1.operators op.channel.name = none) := by
  constructor
  · intro h
    simp [UnregisterSyncOperator, Registry.getAndRemove, h]
  · intro op₀ h
    refine ⟨by simp [UnregisterSyncOperator, Registry.getAndRemove, h], ?_⟩
    simp only [UnregisterSyncOperator, Registry.getAndRemove, h]
    simpa using Registry.get_filter_ne s.operators op.channel.name

/-- Witness for C8: unregistering an absent name panics; unregistering a
present one removes it. -/
theorem unregisterSyncOperator_spec_witness :
    UnregisterSyncOperator ⟨[], ⟨[]⟩, []⟩ ⟨7, ⟨"ch-1", 0⟩⟩ =
      (⟨[], ⟨[]⟩, []⟩, some "sync operator not found, critical bug in code") ∧
    (UnregisterSyncOperator ⟨[("ch-1", ⟨7, ⟨"ch-1", 0⟩⟩)], ⟨[]⟩, []⟩ ⟨7, ⟨"ch-1", 0⟩⟩).2 =
      none ∧
    Registry.get
      (UnregisterSyncOperator ⟨[("ch-1", ⟨7, ⟨"ch-1", 0⟩⟩)], ⟨[]⟩, []⟩
        ⟨7, ⟨"ch-1", 0⟩⟩).1.operators "ch-1" = none :=
  ⟨(unregisterSyncOperator_spec ⟨[], ⟨[]⟩, []⟩ ⟨7, ⟨"ch-1", 0⟩⟩).1 rfl,
   (unregisterSyncOperator_spec ⟨[("ch-1", ⟨7, ⟨"ch-1", 0⟩⟩)], ⟨[]⟩, []⟩
      ⟨7, ⟨"ch-1", 0⟩⟩).2 ⟨7, ⟨"ch-1", 0⟩⟩ (by decide)⟩

/-- Counting an execution with flag `false` in the tick dispatch list is
counting the channel name among the registry keys. -/
lemma count_exec_map (l : List (String × TimeTickSyncOperator)) (name : String) :
    List.count (⟨name, false⟩ : Exec) (l.map (fun kv => (⟨kv.1, false⟩ : Exec))) =
      List.count name (l.map Prod.fst) := by
  induction l with
  | nil => rfl
  | cons kv rest ih =>
      simp [List.count_cons, ih, Exec.mk.injEq]

/-- C6: when the periodic timer fires with no channel in flight and distinct
registered names, the tick dispatches exactly one execution per registered
channel, each with `persisted = false`. -/
theorem handleTick_syncs_every_operator (s : State)
    (hw : s.working = [])
    (hnd : (s.operators.map Prod.fst).Nodup) :
    (handleTick s).2 = s.operators.map (fun kv => ⟨kv.1, false⟩) ∧
    (∀ name, name ∈ s.operators.map Prod.fst →
      List.count (⟨name, false⟩ : Exec) (handleTick s).2 = 1) ∧
    (∀ e ∈ (handleTick s).2, e.persisted = false) := by
  have hfresh : ∀ r ∈ s.operators.map (fun kv => (kv.1, false)),
      WorkingSet.mem s.working r.1 = false := by
    intro r _
    rw [hw]
    rfl
  have hnd2 : ((s.operators.map (fun kv => (kv.1, false))).map Prod.fst).Nodup := by
    simpa [List.map_map, Function.comp] using hnd
  have hall := asyncSyncAll_fresh s (s.operators.map (fun kv => (kv.1, false))) hfresh hnd2
  have hexec : (handleTick s).2 = s.operators.map (fun kv => ⟨kv.1, false⟩) := by
    rw [handleTick, hall]
    simp [List.map_map, Function.comp]
  refine ⟨hexec, ?_, ?_⟩
  · intro name hname
    rw [hexec, count_exec_map]
    exact List.count_eq_one_of_mem hnd hname
  · intro e he
    rw [hexec] at he
    obtain ⟨kv, _, rfl⟩ := List.mem_map.mp he
    rfl

/-- Witness for C6 with two registered operators and an idle working set. -/
theorem handleTick_syncs_every_operator_witness :
    (handleTick ⟨[("A", ⟨1, ⟨"A", 0⟩⟩), ("B", ⟨2, ⟨"B", 0⟩⟩)], ⟨[]⟩, []⟩).2 =
      [⟨"A", false⟩, ⟨"B", false⟩] ∧
    List.count (⟨"A", false⟩ : Exec)
      (handleTick ⟨[("A", ⟨1, ⟨"A", 0⟩⟩), ("B", ⟨2, ⟨"B", 0⟩⟩)], ⟨[]⟩, []⟩).2 = 1 := by
  have h := handleTick_syncs_every_operator
    ⟨[("A", ⟨1, ⟨"A", 0⟩⟩), ("B", ⟨2, ⟨"B", 0⟩⟩)], ⟨[]⟩, []⟩ rfl (by decide)
  exact ⟨h.1, h.2.1 "A" (by decide)⟩

/-- Adding to an empty accumulator creates the single pending signal. -/
lemma addAndNotify_empty (ch : PChannelInfo) (p : Bool) (n : SyncNotifier)
    (h : n.signals = []) : (n.addAndNotify ch p).signals = [(ch, p)] := by
  simp [SyncNotifier.addAndNotify, h]

/-- Adding to an accumulator holding one signal for the same channel name
merges the flags by logical OR. -/
lemma addAndNotify_single (ch : PChannelInfo) (p1 p2 : Bool) (n : SyncNotifier)
    (h : n.signals = [(ch, p1)]) : (n.addAndNotify ch p2).signals = [(ch, p1 || p2)] := by
  simp [SyncNotifier.addAndNotify, h]

/-- Draining an accumulator holding exactly one signal for a channel not in
flight empties the accumulator and launches exactly one execution. -/
lemma handleNotify_single (s : State) (ch : PChannelInfo) (p : Bool)
    (hsig : s.syncNotifier.signals = [(ch, p)])
    (hw : s.working.mem ch.name = false) :
    handleNotify s = (⟨s.operators, ⟨[]⟩, ch.name :: s.working⟩, [⟨ch.name, p⟩]) := by
  have hfresh : ∀ r ∈ [(ch.name, p)],
      WorkingSet.mem (State.mk s.operators ⟨[]⟩ s.working).working r.1 = false := by
    intro r hr
    rw [List.mem_singleton] at hr
    subst hr
    exact hw
  have hall := asyncSyncAll_fresh (State.mk s.operators ⟨[]⟩ s.working)
    [(ch.name, p)] hfresh (by simp)
  have hstep : handleNotify s =
      asyncSyncAll (State.mk s.operators ⟨[]⟩ s.working) [(ch.name, p)] := by
    unfold handleNotify SyncNotifier.drainAll
    rw [hsig]
    rfl
  rw [hstep, hall]
  rfl

/-- C2: two triggers for the same channel before a drain merge by logical OR
into a single pending signal; the drain then dispatches exactly one execution
carrying `p1 || p2`, and the resulting `Sync` call carries that merged flag —
in particular `TriggerSync(A, true)` then `TriggerSync(A, false)` produces one
`Sync(A, true)` and never a `Sync(A, false)`. -/
theorem triggerSync_merges_by_or (s : State) (A : PChannelInfo) (p1 p2 : Bool)
    (hsig : s.syncNotifier.signals = [])
    (hw : s.working.mem A.name = false) :
    (TriggerSync (TriggerSync s A p1) A p2).syncNotifier.getSignal A.name = some (p1 || p2) ∧
    (handleNotify (TriggerSync (TriggerSync s A p1) A p2)).2 = [⟨A.name, p1 || p2⟩] ∧
    (∀ op, s.operators.get A.name = some op → ∀ o : SyncOutcome,
      (runExec (handleNotify (TriggerSync (TriggerSync s A p1) A p2)).1
        ⟨A.name, p1 || p2⟩ o).calls = [⟨A.name, p1 || p2⟩]) := by
  have h1 : (TriggerSync s A p1).syncNotifier.signals = [(A, p1)] :=
    addAndNotify_empty A p1 s.syncNotifier hsig
  have h2 : (TriggerSync (TriggerSync s A p1) A p2).syncNotifier.signals = [(A, p1 || p2)] :=
    addAndNotify_single A p1 p2 _ h1
  have hn := handleNotify_single (TriggerSync (TriggerSync s A p1) A p2) A (p1 || p2) h2 hw
  refine ⟨?_, ?_, ?_⟩
  · simp [SyncNotifier.getSignal, h2]
  · rw [hn]
  · intro op hop o
    rw [hn]
    simp [runExec, TriggerSync, hop]

/-- Witness for C2: a true trigger followed by a false one on channel A. -/
theorem triggerSync_merges_by_or_witness :
    (TriggerSync (TriggerSync ⟨[("A", ⟨1, ⟨"A", 0⟩⟩)], ⟨[]⟩, []⟩ ⟨"A", 0⟩ true)
        ⟨"A", 0⟩ false).syncNotifier.getSignal "A" = some (true || false) ∧
    (handleNotify (TriggerSync (TriggerSync ⟨[("A", ⟨1, ⟨"A", 0⟩⟩)], ⟨[]⟩, []⟩ ⟨"A", 0⟩ true)
        ⟨"A", 0⟩ false)).2 = [⟨"A", true || false⟩] ∧
    (∀ op, Registry.get [("A", ⟨1, ⟨"A", 0⟩⟩)] "A" = some op → ∀ o : SyncOutcome,
      (runExec (handleNotify (TriggerSync
          (TriggerSync ⟨[("A", ⟨1, ⟨"A", 0⟩⟩)], ⟨[]⟩, []⟩ ⟨"A", 0⟩ true)
          ⟨"A", 0⟩ false)).1 ⟨"A", true || false⟩ o).calls = [⟨"A", true || false⟩]) :=
  triggerSync_merges_by_or ⟨[("A", ⟨1, ⟨"A", 0⟩⟩)], ⟨[]⟩, []⟩ ⟨"A", 0⟩ true false rfl rfl

/-- C10: `TriggerSync` never consults the operator registry — it accepts any
channel identity, registered or not, without panic; the pending signal drains
normally into one dispatched execution, which then silently makes no `Sync`
call because the operator lookup fails. -/
theorem triggerSync_unregistered_channel (s : State) (ch : PChannelInfo) (p : Bool)
    (hsig : s.syncNotifier.signals = [])
    (hw : s.working.mem ch.name = false)
    (hop : s.operators.get ch.name = none) :
    (TriggerSync s ch p).operators = s.operators ∧
    (handleNotify (TriggerSync s ch p)).2 = [⟨ch.name, p⟩] ∧
    (∀ o : SyncOutcome,
      (runExec (handleNotify (TriggerSync s ch p)).1 ⟨ch.name, p⟩ o).calls = [] ∧
      (runExec (handleNotify (TriggerSync s ch p)).1 ⟨ch.name, p⟩ o).panicked = false) := by
  have h1 : (TriggerSync s ch p).syncNotifier.signals = [(ch, p)] :=
    addAndNotify_empty ch p s.syncNotifier hsig
  have hn := handleNotify_single (TriggerSync s ch p) ch p h1 hw
  refine ⟨rfl, ?_, ?_⟩
  · rw [hn]
  · intro o
    rw [hn]
    constructor
    · simp [runExec, TriggerSync, hop]
    · simp [runExec, TriggerSync, hop]

/-- Witness for C10: a trigger on a channel that was never registered. -/
theorem triggerSync_unregistered_channel_witness :
    (TriggerSync ⟨[], ⟨[]⟩, []⟩ ⟨"Z", 0⟩ true).operators = [] ∧
    (handleNotify (TriggerSync ⟨[], ⟨[]⟩, []⟩ ⟨"Z", 0⟩ true)).2 = [⟨"Z", true⟩] ∧
    (∀ o : SyncOutcome,
      (runExec (handleNotify (TriggerSync ⟨[], ⟨[]⟩, []⟩ ⟨"Z", 0⟩ true)).1
        ⟨"Z", true⟩ o).calls = [] ∧
      (runExec (handleNotify (TriggerSync ⟨[], ⟨[]⟩, []⟩ ⟨"Z", 0⟩ true)).1
        ⟨"Z", true⟩ o).panicked = false) :=
  triggerSync_unregistered_channel ⟨[], ⟨[]⟩, []⟩ ⟨"Z", 0⟩ true rfl rfl rfl

/-- Once the loop has exited, no step restarts it. -/
lemma sysStep_not_running {s s₂ : Sys} {l : SysLabel} (h : SysStep s l s₂)
    (hr : s.loopRunning = false) : s₂.loopRunning = false := by
  cases h <;> simp_all

/-- A trace starting from a state whose loop has exited contains no
dispatch. -/
lemma sysTrace_no_dispatch {s s₂ : Sys} {ls : List SysLabel} (h : SysTrace s ls s₂) :
    s.loopRunning = false → SysLabel.dispatch ∉ ls := by
  induction h with
  | nil => intro _; simp
  | cons hstep htr ih =>
      intro hr
      simp only [List.mem_cons, not_or]
      constructor
      · intro heq
        subst heq
        cases hstep
        simp_all
      · exact ih (sysStep_not_running hstep hr)

/-- Splitting a trace at an appended label list. -/
lemma sysTrace_append {s s₃ : Sys} {l1 l2 : List SysLabel}
    (h : SysTrace s (l1 ++ l2) s₃) : ∃ m, SysTrace s l1 m ∧ SysTrace m l2 s₃ := by
  induction l1 generalizing s with
  | nil => exact ⟨s, SysTrace.nil s, by simpa using h⟩
  | cons a rest ih =>
      cases h with
      | cons hstep htr =>
          obtain ⟨m, h1, h2⟩ := ih htr
          exact ⟨m, SysTrace.cons hstep h1, h2⟩

/-- Observing the shutdown signal stops the loop. -/
lemma sysStep_loopExit {s s₂ : Sys} (h : SysStep s SysLabel.loopExit s₂) :
    s₂.loopRunning = false := by
  cases h
  rfl

/-- `Close` may return only when the loop has exited and all launched
executions have returned. -/
lemma sysStep_closeReturn {s s₂ : Sys} (h : SysStep s SysLabel.closeReturn s₂) :
    s.closeBegun = true ∧ s.loopRunning = false ∧ s.returned = s.launched := by
  cases h
  rename_i h1 h2 h3
  exact ⟨h1, h2, h3⟩

/-- C3: in every behaviour of the inspector, once the scheduler loop observes
the shutdown signal and exits it performs no further dispatch, and `Close`
returns only at a point where the loop has exited and every
previously-launched execution has returned. -/
theorem close_shutdown_spec (ls₁ ls₂ : List SysLabel) (sfin : Sys) :
    (SysTrace Sys.init (ls₁ ++ SysLabel.loopExit :: ls₂) sfin → SysLabel.dispatch ∉ ls₂) ∧
    (SysTrace Sys.init (ls₁ ++ SysLabel.closeReturn :: ls₂) sfin →
      ∃ m, SysTrace Sys.init ls₁ m ∧ m.closeBegun = true ∧ m.loopRunning = false ∧
        m.returned = m.launched) := by
  constructor
  · intro h
    obtain ⟨m, _, h2⟩ := sysTrace_append h
    cases h2 with
    | cons hstep htr => exact sysTrace_no_dispatch htr (sysStep_loopExit hstep)
  · intro h
    obtain ⟨m, h1, h2⟩ := sysTrace_append h
    cases h2 with
    | cons hstep _ =>
        obtain ⟨hb, hr, hl⟩ := sysStep_closeReturn hstep
        exact ⟨m, h1, hb, hr, hl⟩

/-- Witness for C3 on the concrete behaviour close — loop exit — close
return. -/
theorem close_shutdown_spec_witness :
    SysLabel.dispatch ∉ [SysLabel.closeReturn] ∧
    (∃ m, SysTrace Sys.init [SysLabel.closeBegin, SysLabel.loopExit] m ∧ m.closeBegun = true ∧
      m.loopRunning = false ∧ m.returned = m.launched) := by
  have s1 : SysStep Sys.init SysLabel.closeBegin ⟨true, true, 0, 0, true, false⟩ :=
    SysStep.closeBegin Sys.init
  have s2 : SysStep ⟨true, true, 0, 0, true, false⟩ SysLabel.loopExit
      ⟨false, true, 0, 0, true, false⟩ :=
    SysStep.loopExit _ rfl rfl
  have s3 : SysStep ⟨false, true, 0, 0, true, false⟩ SysLabel.closeReturn
      ⟨false, true, 0, 0, true, true⟩ :=
    SysStep.closeReturn _ rfl rfl rfl
  have tr : SysTrace Sys.init [SysLabel.closeBegin, SysLabel.loopExit, SysLabel.closeReturn]
      ⟨false, true, 0, 0, true, true⟩ :=
    SysTrace.cons s1 (SysTrace.cons s2 (SysTrace.cons s3 (SysTrace.nil _)))
  exact ⟨(close_shutdown_spec [SysLabel.closeBegin] [SysLabel.closeReturn] _).1 tr,
         (close_shutdown_spec [SysLabel.closeBegin, SysLabel.loopExit] [] _).2 tr⟩

end Inspector
